import Mathlib

/-!
Verification of the terminal-tutor conversational query pipeline.

This file gives a shallow embedding, in Lean, of the core functions of the
repository (session store, intent classifier, streaming decoder, danger
classifiers, command executor, token counter) and proves or refutes the
frozen specification claims about them.

The remote HTTP transport and the operating system are external
collaborators: they are modelled as explicit inputs (a transport result, a
process outcome) to the embedded functions.  The JSON library used by the
source (nlohmann/json) is modelled by an executable JSON value type and a
standard-grammar JSON parser below; object member access follows the
library's semantics (lookup of a key in an object, failure on any other
shape).
-/

/-- A JSON value, as produced by the JSON library used by the source.
Numbers record the integer value of their integral part together with a
flag telling whether the literal was an exact integer (no fraction and no
exponent part). -/
inductive Json where
  | null
  | bool (b : Bool)
  | num (n : Int) (exact : Bool)
  | str (s : String)
  | arr (elems : List Json)
  | obj (fields : List (String × Json))

/-- Characters treated as insignificant whitespace by the JSON grammar. -/
def isWsC (c : Char) : Bool := c == ' ' || c == '\t' || c == '\n' || c == '\r'

/-- Skip leading JSON whitespace. -/
def skipWs (l : List Char) : List Char := l.dropWhile isWsC

/-- Decimal digit test. -/
def isDigitC (c : Char) : Bool := '0' ≤ c && c ≤ '9'

/-- Value of a decimal digit string. -/
def digitsVal (l : List Char) : Nat :=
  l.foldl (fun a c => a * 10 + (c.toNat - '0'.toNat)) 0

/-- Value of one hexadecimal digit, if the character is one (digits,
then the lowercase and the uppercase letter ranges, by code point). -/
def hexVal (c : Char) : Option Nat :=
  let n := c.toNat
  if 48 ≤ n && n ≤ 57 then some (n - 48)
  else if 97 ≤ n && n ≤ 102 then some (n - 87)
  else if 65 ≤ n && n ≤ 70 then some (n - 55)
  else none

/-- Parse the body of a JSON string literal (the opening quote already
consumed), returning the decoded characters and the input after the
closing quote.  Escapes follow the JSON grammar; unescaped control
characters are rejected.  The fuel argument only bounds recursion and is
always supplied large enough. -/
def parseStringBody : Nat → List Char → Option (List Char × List Char)
  | 0, _ => none
  | _, [] => none
  | fuel + 1, c :: rest =>
    if c == '"' then some ([], rest)
    else if c == '\\' then
      match rest with
      | [] => none
      | e :: r2 =>
        let dec : Option (Char × List Char) :=
          if e == '"' then some ('"', r2)
          else if e == '\\' then some ('\\', r2)
          else if e == '/' then some ('/', r2)
          else if e == 'b' then some ('\x08', r2)
          else if e == 'f' then some ('\x0c', r2)
          else if e == 'n' then some ('\n', r2)
          else if e == 'r' then some ('\r', r2)
          else if e == 't' then some ('\t', r2)
          else if e == 'u' then
            match r2 with
            | h1 :: h2 :: h3 :: h4 :: r3 =>
              match hexVal h1, hexVal h2, hexVal h3, hexVal h4 with
              | some a, some b, some c2, some d =>
                some (Char.ofNat (((a * 16 + b) * 16 + c2) * 16 + d), r3)
              | _, _, _, _ => none
            | _ => none
          else none
        match dec with
        | none => none
        | some (ch, r3) =>
          match parseStringBody fuel r3 with
          | none => none
          | some (s, rest2) => some (ch :: s, rest2)
    else if c.toNat < 32 then none
    else
      match parseStringBody fuel rest with
      | none => none
      | some (s, rest2) => some (c :: s, rest2)

/-- Parse an optional exponent part.  The boolean records whether the
whole numeric literal is an exact integer. -/
def parseExpPart (n : Int) (exact : Bool) (l : List Char) :
    Option (Int × Bool × List Char) :=
  match l with
  | 'e' :: r =>
    let r2 := match r with
      | '+' :: r3 => r3
      | '-' :: r3 => r3
      | _ => r
    let ds := r2.takeWhile isDigitC
    if ds.isEmpty then none else some (n, false, r2.dropWhile isDigitC)
  | 'E' :: r =>
    let r2 := match r with
      | '+' :: r3 => r3
      | '-' :: r3 => r3
      | _ => r
    let ds := r2.takeWhile isDigitC
    if ds.isEmpty then none else some (n, false, r2.dropWhile isDigitC)
  | _ => some (n, exact, l)

/-- Parse a JSON number literal per the JSON grammar (optional minus,
integer part without leading zeros, optional fraction, optional
exponent). -/
def parseNumber (l : List Char) : Option (Int × Bool × List Char) :=
  let p : Bool × List Char :=
    match l with
    | '-' :: r => (true, r)
    | _ => (false, l)
  let neg := p.1
  let l1 := p.2
  match l1 with
  | [] => none
  | c :: _ =>
    if !isDigitC c then none
    else
      let ip := l1.takeWhile isDigitC
      let r2 := l1.dropWhile isDigitC
      if ip.length > 1 && ip.headD '0' == '0' then none
      else
        let n : Int := if neg then -(digitsVal ip : Int) else (digitsVal ip : Int)
        match r2 with
        | '.' :: r3 =>
          let fd := r3.takeWhile isDigitC
          if fd.isEmpty then none
          else parseExpPart n false (r3.dropWhile isDigitC)
        | _ => parseExpPart n true r2

/-- Insert a member into an object, replacing an existing member with the
same key (the map semantics of the JSON library: a duplicate key
overwrites the earlier value). -/
def insertField : List (String × Json) → String → Json → List (String × Json)
  | [], k, v => [(k, v)]
  | (k0, v0) :: t, k, v =>
    if k0 == k then (k0, v) :: t else (k0, v0) :: insertField t k v

mutual

/-- Parse one JSON value, returning it and the remaining input. -/
def parseValue : Nat → List Char → Option (Json × List Char)
  | 0, _ => none
  | fuel + 1, l =>
    match skipWs l with
    | 'n' :: 'u' :: 'l' :: 'l' :: r => some (.null, r)
    | 't' :: 'r' :: 'u' :: 'e' :: r => some (.bool true, r)
    | 'f' :: 'a' :: 'l' :: 's' :: 'e' :: r => some (.bool false, r)
    | '"' :: r =>
      match parseStringBody (r.length + 1) r with
      | none => none
      | some (s, rest) => some (.str (String.mk s), rest)
    | '\x5b' :: r =>
      match skipWs r with
      | '\x5d' :: r2 => some (.arr [], r2)
      | _ => parseElems fuel r []
    | '\x7b' :: r =>
      match skipWs r with
      | '\x7d' :: r2 => some (.obj [], r2)
      | _ => parseFields fuel r []
    | rest =>
      match parseNumber rest with
      | none => none
      | some (n, exact, r) => some (.num n exact, r)

/-- Parse the elements of a non-empty JSON array (after the opening
bracket), accumulating parsed elements. -/
def parseElems : Nat → List Char → List Json → Option (Json × List Char)
  | 0, _, _ => none
  | fuel + 1, l, acc =>
    match parseValue fuel l with
    | none => none
    | some (v, rest) =>
      match skipWs rest with
      | ',' :: r => parseElems fuel r (acc ++ [v])
      | '\x5d' :: r => some (.arr (acc ++ [v]), r)
      | _ => none

/-- Parse the members of a non-empty JSON object (after the opening
brace), accumulating parsed members. -/
def parseFields : Nat → List Char → List (String × Json) →
    Option (Json × List Char)
  | 0, _, _ => none
  | fuel + 1, l, acc =>
    match skipWs l with
    | '"' :: r =>
      match parseStringBody (r.length + 1) r with
      | none => none
      | some (k, rest) =>
        match skipWs rest with
        | ':' :: r2 =>
          match parseValue fuel r2 with
          | none => none
          | some (v, rest2) =>
            let acc2 := insertField acc (String.mk k) v
            match skipWs rest2 with
            | ',' :: r3 => parseFields fuel r3 acc2
            | '\x7d' :: r3 => some (.obj acc2, r3)
            | _ => none
        | _ => none
    | _ => none

end

/-- Parse a complete JSON document from a character list: one value with
nothing but whitespace after it, as the strict parse of the JSON library
does. -/
def parseJsonL (l : List Char) : Option Json :=
  match parseValue (2 * l.length + 4) l with
  | none => none
  | some (j, rest) => if (skipWs rest).isEmpty then some j else none

/-- Parse a complete JSON document from a string. -/
def parseJson (s : String) : Option Json := parseJsonL s.toList

/-- Parse a JSON document the way the stream-extraction operator of the
JSON library does (`file >> history` in the source): non-strict - one
leading value is read and any trailing content is ignored, an error
arising only when that leading value itself fails to parse. -/
def parseJsonRelaxed (s : String) : Option Json :=
  match parseValue (2 * s.toList.length + 4) s.toList with
  | none => none
  | some (j, _) => some j


/-- Lookup of a key among the members of an object. -/
def lookupF : List (String × Json) → String → Option Json
  | [], _ => none
  | (k, v) :: t, key => if k == key then some v else lookupF t key

/-- Member access: `getField j k` is the value of member `k` when `j` is
an object containing it, and `none` otherwise (the `contains` test of the
JSON library is false on every non-object). -/
def getField : Json → String → Option Json
  | .obj fs, k => lookupF fs k
  | _, _ => none

/-- String member extraction, modelling `j[k].get<std::string>()`: it
succeeds exactly when `j` is an object whose member `k` is a string, and
any other shape throws in the source (modelled as `none`). -/
def getString (j : Json) (k : String) : Option String :=
  match getField j k with
  | some (.str s) => some s
  | _ => none

/-- Membership test, modelling `j.contains(k)`. -/
def hasKey (j : Json) (k : String) : Bool :=
  (getField j k).isSome

/-- Integer extraction, modelling `j.get<int>()`: numbers yield their
(truncated) integer value, booleans convert to 0 or 1, every other shape
throws in the source (modelled as `none`). -/
def getIntOf : Json → Option Int
  | .num n _ => some n
  | .bool b => some (if b then 1 else 0)
  | _ => none

/-- The `empty()` test of the JSON library: true for null and for empty
arrays and objects, false for every primitive value. -/
def jsonEmpty : Json → Bool
  | .null => true
  | .arr [] => true
  | .obj [] => true
  | _ => false

/-! ## Session store (GeminiClient.cpp, Impl) -/

/-- MAX_HISTORY_TURNS from GeminiClient.cpp. -/
def MAX_HISTORY_TURNS : Nat := 10

/-- The in-memory state of a client: the session path (empty means an
ephemeral session with no persistence), the configured response language,
the in-memory history (the elements of the JSON array member `history`),
and the content last written to the backing session file (`none` when
nothing has been written). -/
structure ClientState where
  session_path : String
  language : String
  history : List Json
  stored : Option (List Json)

/-- One history turn as pushed by the source:
a record with a `role` member and a `parts` member holding one object
with a `text` member. -/
def mkTurn (role text : String) : Json :=
  .obj [("role", .str role), ("parts", .arr [.obj [("text", .str text)]])]

/-- The trimming loop of `saveSession`: while the history holds more than
`MAX_HISTORY_TURNS * 2` entries, erase the two oldest entries. -/
def trimHistory (h : List Json) : List Json :=
  if h.length > MAX_HISTORY_TURNS * 2 then trimHistory (h.drop 2) else h
termination_by h.length
decreasing_by
  simp only [List.length_drop]
  omega

/-- `Impl::saveSession`: a no-op for an ephemeral session; otherwise trim
the in-memory history and write it to the backing file. -/
def saveSession (st : ClientState) : ClientState :=
  if st.session_path == "" then st
  else
    let h := trimHistory st.history
    { st with history := h, stored := some h }

/-- `Impl::addToHistory`: a no-op for an ephemeral session; otherwise
append one turn and save. -/
def addToHistory (st : ClientState) (role text : String) : ClientState :=
  if st.session_path == "" then st
  else saveSession { st with history := st.history ++ [mkTurn role text] }

/-- `Impl::loadSession`, as a function of the backing file's content
(`none` when the file is missing or unreadable): the history starts
empty; a present file is parsed with the non-strict stream extraction
(one leading value, trailing content ignored), and a parse failure or a
leading value that is not a JSON array leaves the history empty. -/
def loadSession (session_path : String) (file : Option String) : List Json :=
  if session_path == "" then []
  else
    match file with
    | none => []
    | some content =>
      match parseJsonRelaxed content with
      | some (.arr l) => l
      | _ => []

/-! ## Remote transport model -/

/-- The observable outcome of one HTTP POST: either no response object at
all (connection-level failure) or a response with a status code and a
body. -/
inductive TransportResult where
  | noResponse (err : String)
  | reply (status : Nat) (body : String)

/-- GeminiResponse from GeminiClient.hpp. -/
structure GeminiResponse where
  content : String
  success : Bool
  error : String
deriving DecidableEq

/-- Outcome of the candidates/content/parts/text extraction chain shared
by `sendRequest` and the streaming write callback: the text when the
response has the expected shape, `badShape` when one of the `contains` or
`empty` tests fails (no exception), and `threw` when an access in the
chain throws in the source. -/
inductive ExtractOutcome where
  | ok (s : String)
  | badShape
  | threw

/-- The extraction chain
`j["candidates"][0]["content"]["parts"][0]["text"].get<string>()` guarded
by the `contains`/`empty` tests, exactly as written in the source. -/
def candidatesText (j : Json) : ExtractOutcome :=
  match getField j "candidates" with
  | none => .badShape
  | some v =>
    if jsonEmpty v then .badShape
    else
      match v with
      | .arr (c0 :: _) =>
        match getField c0 "content" with
        | none => .badShape
        | some ct =>
          match getField ct "parts" with
          | none => .badShape
          | some parts =>
            if jsonEmpty parts then .badShape
            else
              match parts with
              | .arr (p0 :: _) =>
                match getString p0 "text" with
                | some s => .ok s
                | none => .threw
              | _ => .threw
      | _ => .threw

/-- The non-200 error message of `sendRequest`: the HTTP status, extended
with the server's error message when the body parses as an object with an
`error.message` string (any failure in that extraction is swallowed). -/
def httpErrorMessage (status : Nat) (body : String) : String :=
  let base := "API error: HTTP " ++ toString status
  match parseJson body with
  | none => base
  | some j =>
    match getField j "error" with
    | none => base
    | some e =>
      match getString e "message" with
      | none => base
      | some m => base ++ " - " ++ m

/-- `Impl::sendRequest`, as a function of the transport outcome.  On
success the reply text is returned and, when the request uses history and
the session is persistent, the user turn and the model turn are appended
and the session saved; every failure path returns an error and leaves the
state untouched.  (The detailed text of a JSON-exception message is
abstracted to a fixed prefix.) -/
def sendRequest (st : ClientState) (prompt : String) (use_history : Bool)
    (tr : TransportResult) : GeminiResponse × ClientState :=
  match tr with
  | .noResponse e => (⟨"", false, "Network error: " ++ e⟩, st)
  | .reply status body =>
    if status ≠ 200 then
      (⟨"", false, httpErrorMessage status body⟩, st)
    else
      match parseJson body with
      | none => (⟨"", false, "JSON parse error"⟩, st)
      | some j =>
        match candidatesText j with
        | .ok s =>
          if use_history && st.session_path != "" then
            let h := trimHistory (st.history ++ [mkTurn "user" prompt, mkTurn "model" s])
            (⟨s, true, ""⟩, { st with history := h, stored := some h })
          else (⟨s, true, ""⟩, st)
        | .badShape => (⟨"", false, "Invalid response structure"⟩, st)
        | .threw => (⟨"", false, "JSON parse error"⟩, st)

/-- `Impl::getLanguageInstruction`. -/
def getLanguageInstruction (language : String) : String :=
  if language == "en-us" || language == "en" then "Respond in English."
  else if language == "pt-br" || language == "pt" then
    "Respond in Portuguese (Brazilian)."
  else if language == "es" || language == "es-es" then "Respond in Spanish."
  else "Respond in " ++ language ++ "."

/-- The instruction prompt built by `smartQuery` and
`smartQueryStreaming` around the user's query. -/
def smartPrompt (language query : String) : String :=
  "User request: " ++ query ++ "\n\n" ++
  "Analyze the request:\n" ++
  "1. EXECUTE: If user wants to DO something with the system (find files, list processes, check disk, etc.)\n" ++
  "2. EXPLAIN: For greetings, questions about concepts, explanations (hi, hello, why, what is, how does X work)\n\n" ++
  "Greetings like 'hi', 'hello', 'ola' are ALWAYS type explain.\n" ++
  "Only use execute if the user clearly wants to run a shell command.\n\n" ++
  "Respond with ONLY valid JSON:\n" ++
  "Execute: \x7b\"type\":\"execute\",\"command\":\"shell command\",\"explanation\":\"1-line plain text explanation\"\x7d\n" ++
  "Explain: \x7b\"type\":\"explain\",\"response\":\"plain text response\"\x7d\n\n" ++
  "CRITICAL: No markdown, no backticks, no asterisks, no formatting. Plain text only.\n" ++
  getLanguageInstruction language

/-! ## Intent classifier (smartQuery / smartQueryStreaming post-processing) -/

/-- The tag of a SmartResponse (SmartResponse::Type in the header). -/
inductive SmartType where
  | EXECUTE
  | EXPLAIN
  | ERROR
deriving DecidableEq

/-- SmartResponse from GeminiClient.hpp.  The source never initialises the
`type` enum field before the branches assign it, so the embedded field is
an `Option`: `none` models a result whose tag was never assigned. -/
structure SmartResponse where
  type : Option SmartType
  command : String
  explanation : String
  error : String
  success : Bool
deriving DecidableEq

/-- Index of the first occurrence of a character, as `std::string::find`. -/
def firstIdxOf (c : Char) : List Char → Option Nat
  | [] => none
  | x :: t => if x == c then some 0 else (firstIdxOf c t).map (· + 1)

/-- Index of the last occurrence of a character, as `std::string::rfind`. -/
def lastIdxOf (c : Char) (l : List Char) : Option Nat :=
  match firstIdxOf c l.reverse with
  | none => none
  | some i => some (l.length - 1 - i)

/-- The brace span used by the classifiers: the substring from the first
opening brace to the last closing brace, provided both exist and the
closing one comes strictly later. -/
def spanOf? (l : List Char) : Option (List Char) :=
  match firstIdxOf '\x7b' l, lastIdxOf '\x7d' l with
  | some s, some e => if e > s then some ((l.drop s).take (e - s + 1)) else none
  | _, _ => none

/-- The content `smartQuery` actually parses: the brace span when one
exists, the whole raw reply otherwise. -/
def extractContent (raw : String) : String :=
  String.mk ((spanOf? raw.toList).getD raw.toList)

/-- The try-block of `smartQuery`'s post-processing applied to the
content to parse and the raw reply.  Each failing extraction models the
thrown exception reaching the catch handler, which turns the result into
an Explain carrying the raw reply (keeping whatever was already assigned
to `command`). -/
def classifyCore (content raw : String) : SmartResponse :=
  match parseJson content with
  | none => ⟨some .EXPLAIN, "", raw, "", true⟩
  | some j =>
    match getString j "type" with
    | none => ⟨some .EXPLAIN, "", raw, "", true⟩
    | some t =>
      if t == "execute" then
        match getString j "command" with
        | none => ⟨some .EXPLAIN, "", raw, "", true⟩
        | some cmd =>
          if hasKey j "explanation" then
            match getString j "explanation" with
            | none => ⟨some .EXPLAIN, cmd, raw, "", true⟩
            | some ex => ⟨some .EXECUTE, cmd, ex, "", true⟩
          else ⟨some .EXECUTE, cmd, "", "", true⟩
      else if t == "explain" then
        match getString j "response" with
        | none => ⟨some .EXPLAIN, "", raw, "", true⟩
        | some r => ⟨some .EXPLAIN, "", r, "", true⟩
      else ⟨some .ERROR, "", "", "Unknown response type: " ++ t, false⟩

/-- The post-transport parsing of `smartQuery`: extract the brace span
(falling back to the whole reply when there is none) and classify it. -/
def classifyContent (raw : String) : SmartResponse :=
  classifyCore (extractContent raw) raw

/-- The try-block of `smartQueryStreaming`'s post-processing.  It differs
from `classifyCore` in two places faithful to the source: when no brace
span exists nothing at all is assigned, and an unrecognised type string
falls through both branches leaving the result unassigned with
`success = false`. -/
def streamCore (content raw : String) : SmartResponse :=
  match parseJson content with
  | none => ⟨some .EXPLAIN, "", raw, "", true⟩
  | some j =>
    match getString j "type" with
    | none => ⟨some .EXPLAIN, "", raw, "", true⟩
    | some t =>
      if t == "execute" then
        match getString j "command" with
        | none => ⟨some .EXPLAIN, "", raw, "", true⟩
        | some cmd =>
          if hasKey j "explanation" then
            match getString j "explanation" with
            | none => ⟨some .EXPLAIN, cmd, raw, "", true⟩
            | some ex => ⟨some .EXECUTE, cmd, ex, "", true⟩
          else ⟨some .EXECUTE, cmd, "", "", true⟩
      else if t == "explain" then
        match getString j "response" with
        | none => ⟨some .EXPLAIN, "", raw, "", true⟩
        | some r => ⟨some .EXPLAIN, "", r, "", true⟩
      else ⟨none, "", "", "", false⟩

/-- The post-stream parsing of `smartQueryStreaming` applied to the
accumulated text: when no brace span exists the result is returned as
initialised (nothing assigned, `success = false`); otherwise the span is
classified by the streaming try-block. -/
def streamClassify (raw : String) : SmartResponse :=
  match spanOf? raw.toList with
  | none => ⟨none, "", "", "", false⟩
  | some c => streamCore (String.mk c) raw

/-- `GeminiClient::smartQuery` as a function of the transport outcome:
build the instruction prompt, send it (with history), surface a transport
failure as an ERROR result, and otherwise classify the reply text. -/
def smartQueryM (st : ClientState) (query : String) (tr : TransportResult) :
    SmartResponse × ClientState :=
  let r := sendRequest st (smartPrompt st.language query) true tr
  if r.1.success then (classifyContent r.1.content, r.2)
  else (⟨some .ERROR, "", "", r.1.error, false⟩, r.2)

/-! ## Streaming decoder (curlWriteCallback) -/

/-- The mutable context of the streaming write callback: the raw byte
buffer, the accumulated text, and the contents of the chunk-sink
invocations so far, in order. -/
structure StreamState where
  buffer : List Char
  accumulated : List Char
  calls : List (List Char)
deriving DecidableEq

/-- Split a buffer at its first newline: the line before it and the rest
after it, or `none` when the buffer holds no newline. -/
def breakAtNl : List Char → Option (List Char × List Char)
  | [] => none
  | c :: cs =>
    if c == '\n' then some ([], cs)
    else
      match breakAtNl cs with
      | none => none
      | some (a, b) => some (c :: a, b)

/-- Strip one trailing carriage return from a line, as the callback
does. -/
def stripCr (l : List Char) : List Char :=
  match l.reverse with
  | '\r' :: t => t.reverse
  | _ => l

/-- Leading-marker test, modelling `line.rfind("data: ", 0) == 0`. -/
def startsWithL : List Char → List Char → Bool
  | [], _ => true
  | _ :: _, [] => false
  | n :: ns, h :: hs => n == h && startsWithL ns hs

/-- Handle one complete line: strip the carriage return, and for a line
bearing the `data: ` marker parse the JSON fragment after it; a fragment
with the expected shape appends its text to the accumulator and to the
chunk-sink call sequence, and every malformed fragment is silently
skipped. -/
def handleLine (line : List Char) (acc : List Char) (calls : List (List Char)) :
    List Char × List (List Char) :=
  let l2 := stripCr line
  if startsWithL ("data: ".toList) l2 then
    match parseJsonL (l2.drop 6) with
    | none => (acc, calls)
    | some j =>
      match candidatesText j with
      | .ok s => (acc ++ s.toList, calls ++ [s.toList])
      | _ => (acc, calls)
  else (acc, calls)

/-- A complete line taken off the front of the buffer leaves a strictly
shorter buffer. -/
theorem breakAtNl_some_length :
    ∀ (l a r : List Char), breakAtNl l = some (a, r) → r.length < l.length := by
  intro l
  induction l with
  | nil => intro a r h; simp [breakAtNl] at h
  | cons c cs ih =>
    intro a r h
    simp only [breakAtNl] at h
    by_cases hc : c == '\n'
    · rw [if_pos hc] at h
      injection h with h2
      rw [Prod.mk.injEq] at h2
      obtain ⟨-, hr⟩ := h2
      subst hr
      simp
    · rw [if_neg hc] at h
      cases hb : breakAtNl cs with
      | none => rw [hb] at h; exact absurd h (by simp)
      | some p =>
        obtain ⟨a1, r1⟩ := p
        rw [hb] at h
        injection h with h2
        rw [Prod.mk.injEq] at h2
        obtain ⟨-, hr⟩ := h2
        subst hr
        have := ih a1 r1 hb
        simp only [List.length_cons]
        omega

/-- The line-splitting loop of the write callback: consume every complete
line in the buffer, handling each in arrival order. -/
def procBuf (buf acc : List Char) (calls : List (List Char)) : StreamState :=
  match hb : breakAtNl buf with
  | none => ⟨buf, acc, calls⟩
  | some (line, rest) =>
    let p := handleLine line acc calls
    procBuf rest p.1 p.2
termination_by buf.length
decreasing_by exact breakAtNl_some_length _ _ _ hb

/-- `curlWriteCallback`: append the newly arrived bytes to the buffer and
process every complete line. -/
def curlWriteCallback (st : StreamState) (data : List Char) : StreamState :=
  procBuf (st.buffer ++ data) st.accumulated st.calls

/-! ## Token budget monitor (countSessionTokens) -/

/-- `GeminiClient::countSessionTokens`, as a function of the transport
outcome of the countTokens request.  The boolean of the result records
whether a remote call was issued at all.  An ephemeral session or an
empty history short-circuits to 0 with no call; otherwise any transport,
parse or extraction failure yields the sentinel -1, and a body carrying a
`totalTokens` member convertible to an integer yields that value. -/
def countSessionTokens (st : ClientState) (tr : TransportResult) : Int × Bool :=
  if st.session_path == "" || st.history.isEmpty then (0, false)
  else
    match tr with
    | .noResponse _ => (-1, true)
    | .reply status body =>
      if status ≠ 200 then (-1, true)
      else
        match parseJson body with
        | none => (-1, true)
        | some j =>
          match getField j "totalTokens" with
          | none => (-1, true)
          | some v =>
            match getIntOf v with
            | some n => (n, true)
            | none => (-1, true)

/-! ## Command executor (main.cpp, executeAndCapture) -/

/-- The wait status of the child process, as inspected through
WIFEXITED / WEXITSTATUS. -/
inductive WaitStatus where
  | exited (code : Nat)
  | signaled

/-- The outcome of running the command through popen: either the pipe
could not be opened, or the process ran producing combined output and a
wait status. -/
inductive ExecOutcome where
  | spawnFail
  | finished (out : List Char) (ws : WaitStatus)

/-- The output truncation ceiling of `executeAndCapture` (2000 bytes). -/
def TRUNC_LIMIT : Nat := 2000

/-- The marker appended to truncated output. -/
def truncMarker : List Char := "\n... [output truncated]".toList

/-- `executeAndCapture` from main.cpp, as a function of the process
outcome: -1 and a fixed message when the command cannot be spawned, the
child's exit code when it exited normally and -1 otherwise, and the
captured output truncated to the ceiling with a trailing marker when it
exceeds the ceiling. -/
def executeAndCapture (oc : ExecOutcome) : Int × List Char :=
  match oc with
  | .spawnFail => (-1, "Failed to execute command".toList)
  | .finished out ws =>
    let exit_code : Int :=
      match ws with
      | .exited c => (c : Int)
      | .signaled => -1
    let out2 :=
      if out.length > TRUNC_LIMIT then out.take TRUNC_LIMIT ++ truncMarker
      else out
    (exit_code, out2)

/-! ## Danger classifier (main.cpp, isDangerousCommand) -/

/-- ASCII lowercasing of one character, as `::tolower` acts on the
command text. -/
def toLowerAscii (c : Char) : Char :=
  if 'A' ≤ c && c ≤ 'Z' then Char.ofNat (c.toNat + 32) else c

/-- Lowercase a character list. -/
def lowerL (l : List Char) : List Char := l.map toLowerAscii

/-- Substring test, modelling `haystack.find(needle) != npos`. -/
def containsL : List Char → List Char → Bool
  | [], needle => needle.isEmpty
  | h :: t, needle => startsWithL needle (h :: t) || containsL t needle

/-- Substring test on strings. -/
def containsStr (hay needle : String) : Bool :=
  containsL hay.toList needle.toList

/-- DANGEROUS_COMMANDS from main.cpp, verbatim. -/
def DANGEROUS_COMMANDS : List String :=
  ["rm", "rmdir", "unlink", "shred",
   "shutdown", "reboot", "poweroff", "halt", "init",
   "mkfs", "fdisk", "parted", "dd", "format", "mkswap",
   "apt-get remove", "apt remove", "apt-get purge", "apt purge",
   "yum remove", "dnf remove", "pacman -R",
   "chmod 777", "chmod -R", "chown -R", "chgrp -R",
   "iptables -F", "ufw disable",
   "kill -9", "killall", "pkill",
   ":()\x7b", "fork bomb",
   "userdel", "deluser", "passwd",
   "sudo"]

/-- DANGEROUS_PATTERNS from main.cpp, verbatim. -/
def DANGEROUS_PATTERNS : List String :=
  ["> /dev/", ">/dev/",
   "> /etc/", ">/etc/",
   "> /boot/", ">/boot/",
   "| rm", "|rm",
   "| dd", "|dd",
   "rf /", "rf ~/", "rf ~", "rf .",
   "mv /* ", "mv / ",
   "> /",
   "| tee /", "|tee /",
   "chmod 000",
   ":()\x7b :",
   "/dev/null >",
   "/dev/zero", "/dev/random"]

/-- `isDangerousCommand` from main.cpp: lowercase the command, then flag
it when a dangerous command name occurs at the start, after a pipe or
after `sudo `, or when any dangerous pattern occurs anywhere. -/
def isDangerousCommand (cmd : String) : Bool :=
  let l := lowerL cmd.toList
  DANGEROUS_COMMANDS.any (fun d =>
    startsWithL d.toList l ||
    containsL l ("| " ++ d).toList ||
    containsL l ("|" ++ d).toList ||
    containsL l ("sudo " ++ d).toList) ||
  DANGEROUS_PATTERNS.any (fun p => containsL l p.toList)

/-! ## Simulator (Simulator.cpp) -/

namespace Simulator

/-- SimulationResult from Simulator.hpp. -/
structure SimulationResult where
  predicted_output : String
  files_affected : List String
  warnings : List String
  is_destructive : Bool

/-- The dangerous pattern list initialised in the Simulator constructor,
verbatim (the regex-looking entries are matched as literal substrings by
the source, exactly as listed). -/
def dangerous_patterns : List String :=
  ["rm -rf", "rm -r /", "rm -rf /", "rm -rf ~", "rm -rf *",
   "> /dev/sda", "dd if=", "mkfs.",
   ":()\x7b:|:&\x7d;:",
   "chmod -R 777 /", "chown -R", "sudo rm", "mv /* ",
   "wget.*|.*sh", "curl.*|.*bash"]

/-- The destructive-verb list combined with `sudo` in
`Simulator::isDangerous`. -/
def dangerous_with_sudo : List String :=
  ["rm", "dd", "mkfs", "chmod", "chown", "mv", "cp"]

/-- `Simulator::isDangerous`: lowercase the command, flag any pattern
occurring anywhere, and additionally flag `sudo` anywhere combined with
any destructive verb anywhere. -/
def isDangerous (command : String) : Bool :=
  let lower := lowerL command.toList
  dangerous_patterns.any (fun p => containsL lower p.toList) ||
  (containsL lower ("sudo".toList) &&
   dangerous_with_sudo.any (fun c => containsL lower c.toList))

/-- Trim of leading and trailing spaces and tabs, as the file-list
parsing does. -/
def trimWs (l : List Char) : List Char :=
  ((l.dropWhile (fun c => c == ' ' || c == '\t')).reverse.dropWhile
    (fun c => c == ' ' || c == '\t')).reverse

/-- The text after the first colon of a line, modelling
`line.substr(line.find(":") + 1)` (when the line has no colon, npos + 1
wraps to 0 and the whole line is taken). -/
def afterFirstColon (l : List Char) : List Char :=
  match firstIdxOf ':' l with
  | some i => l.drop (i + 1)
  | none => l

/-- A found index lies inside the list. -/
theorem firstIdxOf_some_lt :
    ∀ (c : Char) (l : List Char) (i : Nat),
      firstIdxOf c l = some i → i < l.length := by
  intro c l
  induction l with
  | nil => intro i h; simp [firstIdxOf] at h
  | cons x t ih =>
    intro i h
    simp only [firstIdxOf] at h
    by_cases hx : x == c
    · rw [if_pos hx] at h
      injection h with h2
      subst h2
      simp
    · rw [if_neg hx] at h
      cases hf : firstIdxOf c t with
      | none => rw [hf] at h; exact absurd h (by simp)
      | some j =>
        rw [hf] at h
        simp only [Option.map] at h
        injection h with h2
        subst h2
        have := ih j hf
        simp only [List.length_cons]
        omega

/-- Comma splitting, as `std::getline` with a comma delimiter produces
fields (a trailing empty field is filtered out later with the other empty
fields). -/
def splitComma (l : List Char) : List (List Char) :=
  match hb : firstIdxOf ',' l with
  | none => [l]
  | some i => l.take i :: splitComma (l.drop (i + 1))
termination_by l.length
decreasing_by
  have := firstIdxOf_some_lt ',' l i hb
  simp only [List.length_drop]
  omega


/-- Newline splitting, as the `std::getline` loop over the response
content produces lines (no line for empty input, and a trailing newline
produces no trailing empty line). -/
def splitNl (l : List Char) : List (List Char) :=
  if l.isEmpty then []
  else
    match hb : firstIdxOf '\n' l with
    | none => [l]
    | some i => l.take i :: splitNl (l.drop (i + 1))
termination_by l.length
decreasing_by
  have := firstIdxOf_some_lt '\n' l i hb
  simp only [List.length_drop]
  omega

/-- The file-list parsing of one `ARQUIVOS_AFETADOS:` line: take the text
after the first colon, split on commas, trim each field, and keep the
non-empty fields in order. -/
def parseFilesLine (line : List Char) : List String :=
  (splitComma (afterFirstColon line)).filterMap
    (fun f =>
      let t := trimWs f
      if t.isEmpty then none else some (String.mk t))

/-- Processing of one line of the structured response inside
`Simulator::simulate`: a line containing the files marker appends its
parsed file list, and a line containing `NIVEL_DESTRUTIVIDADE: ALTO`
upgrades `is_destructive` to true. -/
def procSimLine (r : SimulationResult) (line : List Char) : SimulationResult :=
  let r1 :=
    if containsL line ("ARQUIVOS_AFETADOS:".toList) then
      { r with files_affected := r.files_affected ++ parseFilesLine line }
    else r
  if containsL line ("NIVEL_DESTRUTIVIDADE: ALTO".toList) then
    { r1 with is_destructive := true }
  else r1

/-- `Simulator::simulate`, as a function of the transport response to the
prediction prompt: seed `is_destructive` from the heuristic, add the
heuristic warnings, and on a successful response record the predicted
text and fold the structured-response parsing over its lines. -/
def simulate (command : String) (response : GeminiResponse) : SimulationResult :=
  let r0 : SimulationResult :=
    { predicted_output := "", files_affected := [], warnings := [],
      is_destructive := isDangerous command }
  let r1 :=
    if r0.is_destructive then
      { r0 with warnings := r0.warnings ++
          ["ATENCAO: Este comando e potencialmente destrutivo!"] }
    else r0
  let r2 :=
    if containsStr command "rm" then
      let a :=
        if containsStr command "-rf" || containsStr command "-r" then
          { r1 with warnings := r1.warnings ++
              ["Este comando remove arquivos/diretorios recursivamente."] }
        else r1
      if containsStr command "*" then
        { a with warnings := a.warnings ++
            ["O uso de wildcard (*) pode afetar mais arquivos do que o esperado."] }
      else a
    else r1
  let r3 :=
    if containsStr command "chmod" && containsStr command "777" then
      { r2 with warnings := r2.warnings ++
          ["chmod 777 remove todas as restricoes de seguranca do arquivo."] }
    else r2
  if response.success then
    (splitNl response.content.toList).foldl procSimLine
      { r3 with predicted_output := response.content }
  else
    { r3 with predicted_output := "Erro ao simular comando: " ++ response.error }

end Simulator

/-! ## Helper lemmas -/

/-- One-step unfolding of the trimming loop. -/
theorem trimHistory_eq (h : List Json) :
    trimHistory h =
      if h.length > MAX_HISTORY_TURNS * 2 then trimHistory (h.drop 2) else h := by
  rw [trimHistory]

/-- The trimming loop always leaves at most `MAX_HISTORY_TURNS * 2`
entries. -/
theorem trimHistory_length_le :
    ∀ (n : Nat) (h : List Json), h.length ≤ n →
      (trimHistory h).length ≤ MAX_HISTORY_TURNS * 2 := by
  intro n
  induction n with
  | zero =>
    intro h hl
    rw [trimHistory_eq]
    have hc : ¬(h.length > MAX_HISTORY_TURNS * 2) := by
      simp [MAX_HISTORY_TURNS]; omega
    rw [if_neg hc]
    omega
  | succ n ih =>
    intro h hl
    rw [trimHistory_eq]
    by_cases hc : h.length > MAX_HISTORY_TURNS * 2
    · rw [if_pos hc]
      exact ih (h.drop 2) (by simp only [List.length_drop]; omega)
    · rw [if_neg hc]
      omega

/-- The trimming loop only drops pairs of entries off the front: the
result is the suffix obtained by dropping the `2 * k` oldest entries for
some `k`. -/
theorem trimHistory_drop :
    ∀ (n : Nat) (h : List Json), h.length ≤ n →
      ∃ k, trimHistory h = h.drop (2 * k) := by
  intro n
  induction n with
  | zero =>
    intro h hl
    rw [trimHistory_eq]
    have hc : ¬(h.length > MAX_HISTORY_TURNS * 2) := by omega
    rw [if_neg hc]
    exact ⟨0, by simp⟩
  | succ n ih =>
    intro h hl
    rw [trimHistory_eq]
    by_cases hc : h.length > MAX_HISTORY_TURNS * 2
    · rw [if_pos hc]
      obtain ⟨k, hk⟩ := ih (h.drop 2) (by simp only [List.length_drop]; omega)
      refine ⟨k + 1, ?_⟩
      rw [hk, List.drop_drop]
      congr 1
      ring
    · rw [if_neg hc]
      exact ⟨0, by simp⟩

/-- C1: For every session with a non-empty name (persistent session),
after any append operation the stored turn sequence has at most
`MAX_HISTORY_TURNS * 2` (= 20) entries, trimming only drops the oldest
entries in pairs, the retained turns are the most recent ones in their
original insertion order (a suffix of the appended sequence), and the
trimmed history is what gets persisted. -/
theorem c1_trim_invariant (st : ClientState) (role text : String)
    (hp : st.session_path ≠ "") :
    (addToHistory st role text).history.length ≤ MAX_HISTORY_TURNS * 2 ∧
    (∃ k, (addToHistory st role text).history =
      (st.history ++ [mkTurn role text]).drop (2 * k)) ∧
    (addToHistory st role text).stored =
      some (addToHistory st role text).history := by
  have hb : (st.session_path == "") = false := by
    simp [hp]
  simp only [addToHistory, hb, Bool.false_eq_true, if_false, saveSession]
  refine ⟨?_, ?_, ?_⟩
  · exact trimHistory_length_le (st.history ++ [mkTurn role text]).length _ le_rfl
  · exact trimHistory_drop (st.history ++ [mkTurn role text]).length _ le_rfl
  · trivial

/-- Witness for C1 at a concrete persistent session. -/
theorem c1_trim_invariant_witness :
    ("x" : String) ≠ "" ∧
    (addToHistory ⟨"x", "en", [], none⟩ "user" "hi").history.length ≤
      MAX_HISTORY_TURNS * 2 :=
  ⟨by decide, (c1_trim_invariant ⟨"x", "en", [], none⟩ "user" "hi" (by decide)).1⟩

/-- C4: The Danger Classifier gating execution (isDangerousCommand in
main.cpp) returns true for the four sample commands and false for
`ls -la /home`; additionally, the compound sudo + destructive-verb rule
lives in `Simulator::isDangerous`, which flags `sudo mv file1 file2`
although `mv` alone is flagged by neither classifier's direct list. -/
theorem c4_danger_samples :
    isDangerousCommand "sudo rm -rf /tmp/x" = true ∧
    isDangerousCommand "chmod 777 /etc/passwd" = true ∧
    isDangerousCommand "dd if=/dev/zero of=/dev/sda" = true ∧
    isDangerousCommand "sudo mv file1 file2" = true ∧
    isDangerousCommand "ls -la /home" = false ∧
    Simulator.isDangerous "sudo mv file1 file2" = true ∧
    Simulator.isDangerous "mv file1 file2" = false ∧
    (DANGEROUS_COMMANDS.contains "mv" = false ∧
     Simulator.dangerous_patterns.any
       (fun p => containsStr "sudo mv file1 file2" p) = false) := by
  decide

/-- C5: Output exceeding the 2000-byte ceiling is returned as exactly the
first 2000 bytes followed by the truncation marker; the exit status is
the child's real exit code on a normal exit, and the sentinel -1 when the
status cannot be determined or the process cannot be spawned (with its
fixed failure message). -/
theorem c5_execute_capture :
    (∀ (out : List Char) (ws : WaitStatus), out.length > TRUNC_LIMIT →
      (executeAndCapture (.finished out ws)).2 = out.take TRUNC_LIMIT ++ truncMarker ∧
      (out.take TRUNC_LIMIT).length = TRUNC_LIMIT) ∧
    (∀ (out : List Char) (c : Nat),
      (executeAndCapture (.finished out (.exited c))).1 = (c : Int)) ∧
    (∀ (out : List Char),
      (executeAndCapture (.finished out .signaled)).1 = -1) ∧
    executeAndCapture .spawnFail = (-1, "Failed to execute command".toList) := by
  refine ⟨?_, ?_, ?_, rfl⟩
  · intro out ws h
    constructor
    · simp only [executeAndCapture, if_pos h]
    · simp only [List.length_take]
      omega
  · intro out c
    simp [executeAndCapture]
  · intro out
    simp [executeAndCapture]

/-- Witness for C5 at a 2001-byte output. -/
theorem c5_execute_capture_witness :
    (List.replicate 2001 'a').length > TRUNC_LIMIT ∧
    (executeAndCapture (.finished (List.replicate 2001 'a') (.exited 3))).2 =
      (List.replicate 2001 'a').take TRUNC_LIMIT ++ truncMarker :=
  ⟨by rw [List.length_replicate]; norm_num [TRUNC_LIMIT],
   (c5_execute_capture.1 (List.replicate 2001 'a') (.exited 3)
     (by rw [List.length_replicate]; norm_num [TRUNC_LIMIT])).1⟩

/-- Counterexample to C6 as stated: the backing store "[1]garbage" is
not a well-formed JSON document (the strict whole-document parse
rejects it), yet loading it does not yield an empty session: the stream
extraction used by the source is non-strict, reads the leading array and
ignores the trailing garbage, so the session loads with one turn. -/
theorem c6_counterexample :
    parseJson "[1]garbage" = none ∧
    loadSession "s" (some "[1]garbage") = [Json.num 1 true] := by
  constructor <;> rfl

/-- C6 (amended): loading a session whose backing store is missing,
empty, or does not begin with a parseable JSON value yields an empty
session and never an error; the parse is non-strict, as the stream
extraction of the source is: a store beginning with a well-formed JSON
array loads exactly that array, any trailing content ignored, and a
store whose leading value is not an array yields an empty session. -/
theorem c6_load_nonstrict :
    (∀ p, loadSession p none = []) ∧
    (∀ p c, parseJsonRelaxed c = none → loadSession p (some c) = []) ∧
    (∀ p c j, parseJsonRelaxed c = some j → (∀ l, j ≠ .arr l) →
      loadSession p (some c) = []) ∧
    (∀ p c l, p ≠ "" → parseJsonRelaxed c = some (.arr l) →
      loadSession p (some c) = l) := by
  refine ⟨?_, ?_, ?_, ?_⟩
  · intro p
    simp only [loadSession]
    split <;> rfl
  · intro p c h
    simp only [loadSession, h]
    split <;> rfl
  · intro p c j h hne
    simp only [loadSession, h]
    split
    · rfl
    · cases j with
      | arr l => exact absurd rfl (hne l)
      | null => rfl
      | bool b => rfl
      | num n e => rfl
      | str s => rfl
      | obj fs => rfl
  · intro p c l hp h
    have hb : (p == "") = false := by simp [hp]
    simp only [loadSession, h, hb, Bool.false_eq_true, if_false]

/-- Witness for C6 (amended) at an empty store, a well-formed array and
a store whose leading value is a non-array with trailing content. -/
theorem c6_load_nonstrict_witness :
    loadSession "s" (some "") = [] ∧
    loadSession "s" (some "[1]") = [Json.num 1 true] ∧
    loadSession "s" (some "5 tail") = [] :=
  ⟨c6_load_nonstrict.2.1 "s" "" rfl,
   c6_load_nonstrict.2.2.2 "s" "[1]" [Json.num 1 true] (by decide) rfl,
   c6_load_nonstrict.2.2.1 "s" "5 tail" (Json.num 5 true) rfl
     (fun l h => Json.noConfusion h)⟩

/-- C8: On an ephemeral session or an empty history the token counter
returns 0 and issues no remote call; for a persistent session with turns
it returns the sentinel -1 on every failure (connection failure, non-200
status, unparseable body, missing or non-integer `totalTokens`), and the
reported count - non-negative whenever the endpoint reports a count,
which is non-negative by nature - on success. -/
theorem c8_count_tokens (st : ClientState) :
    (st.session_path = "" → ∀ tr, countSessionTokens st tr = (0, false)) ∧
    (st.history = [] → ∀ tr, countSessionTokens st tr = (0, false)) ∧
    (st.session_path ≠ "" → st.history ≠ [] →
      (∀ e, countSessionTokens st (.noResponse e) = (-1, true)) ∧
      (∀ status body, status ≠ 200 →
        countSessionTokens st (.reply status body) = (-1, true)) ∧
      (∀ body, parseJson body = none →
        countSessionTokens st (.reply 200 body) = (-1, true)) ∧
      (∀ body j, parseJson body = some j → getField j "totalTokens" = none →
        countSessionTokens st (.reply 200 body) = (-1, true)) ∧
      (∀ body j v, parseJson body = some j →
        getField j "totalTokens" = some v → getIntOf v = none →
        countSessionTokens st (.reply 200 body) = (-1, true)) ∧
      (∀ body j v n, parseJson body = some j →
        getField j "totalTokens" = some v → getIntOf v = some n → 0 ≤ n →
        countSessionTokens st (.reply 200 body) = (n, true) ∧ 0 ≤ n)) := by
  refine ⟨?_, ?_, ?_⟩
  · intro hp tr
    simp [countSessionTokens, hp]
  · intro hh tr
    simp [countSessionTokens, hh]
  · intro hp hh
    have hb : (st.session_path == "" || st.history.isEmpty) = false := by
      simp [hp, hh]
    refine ⟨?_, ?_, ?_, ?_, ?_, ?_⟩
    · intro e
      simp [countSessionTokens, hb]
    · intro status body hs
      simp [countSessionTokens, hb, hs]
    · intro body hj
      simp [countSessionTokens, hb, hj]
    · intro body j hj hf
      simp [countSessionTokens, hb, hj, hf]
    · intro body j v hj hf hi
      simp [countSessionTokens, hb, hj, hf, hi]
    · intro body j v n hj hf hi hn
      exact ⟨by simp [countSessionTokens, hb, hj, hf, hi], hn⟩

/-- Witness for C8: a persistent session with one turn, exercised at a
connection failure and at a successful count of 42. -/
theorem c8_count_tokens_witness :
    countSessionTokens ⟨"s", "en", [Json.null], none⟩ (.noResponse "down") =
      (-1, true) ∧
    countSessionTokens ⟨"s", "en", [Json.null], none⟩
      (.reply 200 "\x7b\"totalTokens\": 42\x7d") = (42, true) :=
  ⟨((c8_count_tokens ⟨"s", "en", [Json.null], none⟩).2.2 (by decide)
      (List.cons_ne_nil _ _)).1 "down",
   (((c8_count_tokens ⟨"s", "en", [Json.null], none⟩).2.2 (by decide)
      (List.cons_ne_nil _ _)).2.2.2.2.2 "\x7b\"totalTokens\": 42\x7d"
      (Json.obj [("totalTokens", Json.num 42 true)]) (Json.num 42 true) 42
      rfl rfl rfl (by decide)).1⟩

/-- C10: When a synchronous request fails (connection failure, non-200
status, unparseable body, or ill-structured response), `sendRequest`
returns an unsuccessful result and leaves the in-memory history and the
persisted file exactly as they were; the user and model turns are
appended (trimmed) and persisted only on success with history enabled on
a persistent session. -/
theorem c10_failure_frame (st : ClientState) (prompt : String) (uh : Bool)
    (tr : TransportResult) :
    ((sendRequest st prompt uh tr).1.success = false →
      (sendRequest st prompt uh tr).2 = st) ∧
    ((sendRequest st prompt uh tr).1.success = true → uh = true →
      st.session_path ≠ "" →
      (sendRequest st prompt uh tr).2.history =
        trimHistory (st.history ++ [mkTurn "user" prompt,
          mkTurn "model" (sendRequest st prompt uh tr).1.content]) ∧
      (sendRequest st prompt uh tr).2.stored =
        some ((sendRequest st prompt uh tr).2.history)) := by
  cases tr with
  | noResponse e => simp [sendRequest]
  | reply status body =>
    by_cases hs : status = 200
    · subst hs
      simp only [sendRequest, ne_eq, not_true_eq_false, if_false, reduceIte]
      cases hj : parseJson body with
      | none => simp
      | some j =>
        cases hc : candidatesText j with
        | ok s =>
          simp only [hc]
          by_cases hu : (uh && st.session_path != "") = true
          · simp only [hu, if_true]
            constructor
            · intro hfail
              exact absurd hfail (by simp)
            · intro _ _ _
              constructor <;> trivial
          · simp only [hu, Bool.false_eq_true, if_false]
            constructor
            · intro hfail
              exact absurd hfail (by simp)
            · intro _ huh hp
              exfalso
              apply hu
              simp [huh, bne_iff_ne, hp]
        | badShape => simp [hc]
        | threw => simp [hc]
    · simp [sendRequest, hs]

/-- Witness for C10: a connection failure leaves a concrete state
untouched. -/
theorem c10_failure_frame_witness :
    (sendRequest ⟨"s", "en", [], none⟩ "p" true (.noResponse "down")).1.success
      = false ∧
    (sendRequest ⟨"s", "en", [], none⟩ "p" true (.noResponse "down")).2 =
      ⟨"s", "en", [], none⟩ :=
  ⟨rfl, (c10_failure_frame ⟨"s", "en", [], none⟩ "p" true
    (.noResponse "down")).1 rfl⟩

/-- Counterexample to C2 as stated: the reply is exactly a JSON object
whose `type` is the unrecognised string "chat"; the span parses as valid
JSON and merely lacks a recognised type, yet the classifier produces a
hard ERROR result with `success = false` instead of falling back to an
Explain carrying the raw reply - so structured-parsing outcomes can
produce Error, not only transport failures. -/
theorem c2_counterexample :
    classifyContent "\x7b\"type\":\"chat\"\x7d" =
      ⟨some .ERROR, "", "", "Unknown response type: chat", false⟩ := by
  rfl

/-- C2 (amended): the classifier parses the first-brace-to-last-brace
span (the whole reply when there is none); if that content fails to parse
as JSON, or the `type` member cannot be extracted as a string, the result
is an Explain carrying the entire raw reply with `success = true`; but a
span parsing to an object whose `type` string is neither `execute` nor
`explain` yields an ERROR result, and transport-level failures also
surface as ERROR carrying the transport error. -/
theorem c2_schema_fallback :
    (∀ raw, parseJson (extractContent raw) = none →
      classifyContent raw = ⟨some .EXPLAIN, "", raw, "", true⟩) ∧
    (∀ raw j, parseJson (extractContent raw) = some j →
      getString j "type" = none →
      classifyContent raw = ⟨some .EXPLAIN, "", raw, "", true⟩) ∧
    (∀ raw j t, parseJson (extractContent raw) = some j →
      getString j "type" = some t → t ≠ "execute" → t ≠ "explain" →
      classifyContent raw =
        ⟨some .ERROR, "", "", "Unknown response type: " ++ t, false⟩) ∧
    (∀ st q tr,
      (sendRequest st (smartPrompt st.language q) true tr).1.success = false →
      smartQueryM st q tr =
        (⟨some .ERROR, "", "",
          (sendRequest st (smartPrompt st.language q) true tr).1.error, false⟩,
         (sendRequest st (smartPrompt st.language q) true tr).2)) := by
  refine ⟨?_, ?_, ?_, ?_⟩
  · intro raw h
    simp only [classifyContent, classifyCore, h]
  · intro raw j h ht
    simp only [classifyContent, classifyCore, h, ht]
  · intro raw j t h ht hex hel
    have hex2 : (t == "execute") = false := by simp [hex]
    have hel2 : (t == "explain") = false := by simp [hel]
    simp only [classifyContent, classifyCore, h, ht, hex2, hel2,
      Bool.false_eq_true, if_false]
  · intro st q tr h
    simp only [smartQueryM, h, Bool.false_eq_true, if_false]

/-- Witness for C2 (amended): an unparseable reply falls back to Explain
with the raw text, and an object with an unrecognised type yields the
Unknown-response-type ERROR. -/
theorem c2_schema_fallback_witness :
    classifyContent "hello" = ⟨some .EXPLAIN, "", "hello", "", true⟩ ∧
    classifyContent "\x7b\"type\":\"foo\"\x7d" =
      ⟨some .ERROR, "", "", "Unknown response type: foo", false⟩ :=
  ⟨c2_schema_fallback.1 "hello" rfl,
   c2_schema_fallback.2.2.1 "\x7b\"type\":\"foo\"\x7d"
     (Json.obj [("type", Json.str "foo")]) "foo" rfl rfl
     (by decide) (by decide)⟩

/-- Counterexample to C3 as stated: on the accumulated text "hello"
(no brace span) the synchronous post-processing yields an Explain of the
raw text with `success = true`, while the streaming post-processing
returns its result as initialised with `success = false` and no type
assigned - the two are not the same SmartResponse. -/
theorem c3_counterexample :
    streamClassify "hello" ≠ classifyContent "hello" := by
  decide

/-- Recognition test used by the amended C3: the parse outcome of the
span either fails, fails type extraction, or carries one of the two
recognised type strings. -/
def typeRecognized (c : List Char) : Bool :=
  match parseJsonL c with
  | none => true
  | some j =>
    match getString j "type" with
    | none => true
    | some t => t == "execute" || t == "explain"

/-- C3 (amended): whenever the accumulated text contains a brace span
(a first `\x7b` strictly before the last `\x7d`) and the span's parse
outcome does not carry an unrecognised type string, the streaming
post-processing yields exactly the SmartResponse of the synchronous
post-processing; the two diverge only when no span exists or the type
string is unrecognised. -/
theorem c3_stream_agrees (raw : String) (c : List Char)
    (hspan : spanOf? raw.toList = some c)
    (hok : typeRecognized c = true) :
    streamClassify raw = classifyContent raw := by
  have hext : extractContent raw = String.mk c := by
    simp only [extractContent, hspan, Option.getD_some]
  simp only [streamClassify, hspan, classifyContent, hext]
  have hp0 : parseJson (String.mk c) = parseJsonL c := rfl
  cases hp : parseJsonL c with
  | none =>
    simp only [streamCore, classifyCore, hp0, hp]
  | some j =>
    simp only [streamCore, classifyCore, hp0, hp]
    cases ht : getString j "type" with
    | none => simp only [ht]
    | some t =>
      simp only [ht]
      simp only [typeRecognized, hp, ht] at hok
      by_cases hex : (t == "execute") = true
      · simp only [hex, if_true]
      · simp only [hex, Bool.false_eq_true, if_false] at hok ⊢
        simp only [Bool.false_or] at hok
        simp only [hok, if_true]

/-- Witness for C3 (amended): a well-formed explain reply is classified
identically by both post-processors. -/
theorem c3_stream_agrees_witness :
    spanOf? ("\x7b\"type\":\"explain\",\"response\":\"hi\"\x7d".toList) =
      some ("\x7b\"type\":\"explain\",\"response\":\"hi\"\x7d".toList) ∧
    streamClassify "\x7b\"type\":\"explain\",\"response\":\"hi\"\x7d" =
      classifyContent "\x7b\"type\":\"explain\",\"response\":\"hi\"\x7d" :=
  ⟨rfl, c3_stream_agrees _ _ rfl (by rfl)⟩

/-- One structured-response line never clears the destructive flag. -/
theorem procSimLine_keeps_true (r : Simulator.SimulationResult)
    (line : List Char) (h : r.is_destructive = true) :
    (Simulator.procSimLine r line).is_destructive = true := by
  simp only [Simulator.procSimLine]
  by_cases h2 : containsL line ("NIVEL_DESTRUTIVIDADE: ALTO".toList) = true
  · simp only [h2, if_true]
  · simp only [h2, Bool.false_eq_true, if_false]
    by_cases h1 : containsL line ("ARQUIVOS_AFETADOS:".toList) = true
    · simp only [h1, if_true]
      exact h
    · simp only [h1, Bool.false_eq_true, if_false]
      exact h

/-- The fold of the structured-response parsing preserves a true
destructive flag. -/
theorem foldSim_keeps_true :
    ∀ (lines : List (List Char)) (r : Simulator.SimulationResult),
      r.is_destructive = true →
      (lines.foldl Simulator.procSimLine r).is_destructive = true := by
  intro lines
  induction lines with
  | nil => intro r h; simpa using h
  | cons a t ih =>
    intro r h
    simp only [List.foldl_cons]
    exact ih _ (procSimLine_keeps_true r a h)

/-- C9: whenever the initial heuristic flags the command, the simulation
result is destructive no matter what the structured response contains:
the line parsing can only upgrade the flag (on a
NIVEL_DESTRUTIVIDADE: ALTO line), never downgrade it. -/
theorem c9_never_downgraded (command : String) (response : GeminiResponse)
    (h : Simulator.isDangerous command = true) :
    (Simulator.simulate command response).is_destructive = true := by
  simp only [Simulator.simulate, h, if_true]
  by_cases ha : containsStr command "rm" = true <;>
  by_cases hb : (containsStr command "-rf" || containsStr command "-r") = true <;>
  by_cases hc : containsStr command "*" = true <;>
  by_cases hd : (containsStr command "chmod" && containsStr command "777") = true <;>
  by_cases hs : response.success = true <;>
    simp only [ha, hb, hc, hd, hs, Bool.false_eq_true, if_true, if_false] <;>
    first
      | rfl
      | exact foldSim_keeps_true _ _ rfl

/-- Witness for C9 at a concrete dangerous command and a concrete
successful response claiming a low destructiveness level. -/
theorem c9_never_downgraded_witness :
    Simulator.isDangerous "sudo rm -rf /tmp/x" = true ∧
    (Simulator.simulate "sudo rm -rf /tmp/x"
      ⟨"NIVEL_DESTRUTIVIDADE: BAIXO", true, ""⟩).is_destructive = true :=
  ⟨by decide, c9_never_downgraded "sudo rm -rf /tmp/x"
    ⟨"NIVEL_DESTRUTIVIDADE: BAIXO", true, ""⟩ (by decide)⟩

/-- One-step unfolding of the line-splitting loop. -/
theorem procBuf_eq (buf acc : List Char) (calls : List (List Char)) :
    procBuf buf acc calls =
      match breakAtNl buf with
      | none => ⟨buf, acc, calls⟩
      | some (line, rest) =>
        procBuf rest (handleLine line acc calls).1 (handleLine line acc calls).2 := by
  rw [procBuf]
  split <;> simp_all

/-- Appending bytes after a buffer whose first line is complete leaves
that first line unchanged and appends to the remainder. -/
theorem breakAtNl_append_some :
    ∀ (b d a r : List Char), breakAtNl b = some (a, r) →
      breakAtNl (b ++ d) = some (a, r ++ d) := by
  intro b
  induction b with
  | nil => intro d a r h; simp [breakAtNl] at h
  | cons c cs ih =>
    intro d a r h
    simp only [breakAtNl] at h
    simp only [List.cons_append, breakAtNl, List.append_eq]
    by_cases hc : (c == '\n') = true
    · rw [if_pos hc] at h
      rw [if_pos hc]
      injection h with h2
      rw [Prod.mk.injEq] at h2
      obtain ⟨ha, hr⟩ := h2
      subst ha
      subst hr
      rfl
    · rw [if_neg hc] at h
      rw [if_neg hc]
      cases hb : breakAtNl cs with
      | none => rw [hb] at h; exact absurd h (by simp)
      | some p =>
        obtain ⟨a1, r1⟩ := p
        rw [hb] at h
        injection h with h2
        rw [Prod.mk.injEq] at h2
        obtain ⟨ha, hr⟩ := h2
        subst ha
        subst hr
        rw [ih d a1 r1 hb]

/-- Processing a buffer and then further bytes is processing the
concatenation: the loop state after the first write is a valid
continuation point. -/
theorem procBuf_append :
    ∀ (n : Nat) (b : List Char), b.length ≤ n →
      ∀ (acc : List Char) (calls : List (List Char)) (d : List Char),
        procBuf ((procBuf b acc calls).buffer ++ d)
          (procBuf b acc calls).accumulated (procBuf b acc calls).calls =
        procBuf (b ++ d) acc calls := by
  intro n
  induction n with
  | zero =>
    intro b hb acc calls d
    have hbnil : b = [] := List.length_eq_zero.mp (Nat.le_zero.mp hb)
    subst hbnil
    rw [procBuf_eq []]
    simp [breakAtNl]
  | succ n ih =>
    intro b hb acc calls d
    cases hbk : breakAtNl b with
    | none =>
      rw [procBuf_eq b, hbk]
    | some p =>
      obtain ⟨line, rest⟩ := p
      have h2 := breakAtNl_append_some b d line rest hbk
      rw [procBuf_eq b, hbk, procBuf_eq (b ++ d), h2]
      exact ih rest
        (by have := breakAtNl_some_length b line rest hbk; omega) _ _ d

/-- Handling one line changes the accumulator and the call sequence by a
common suffix: either nothing, or one decoded chunk appended to both. -/
theorem handleLine_delta (line acc : List Char) (calls : List (List Char)) :
    ∃ dc, handleLine line acc calls = (acc ++ dc.flatten, calls ++ dc) := by
  simp only [handleLine]
  by_cases h1 : startsWithL ("data: ".toList) (stripCr line) = true
  · simp only [h1, if_true]
    cases hp : parseJsonL ((stripCr line).drop 6) with
    | none => exact ⟨[], by simp [hp]⟩
    | some j =>
      cases hc : candidatesText j with
      | ok s => exact ⟨[s.toList], by simp [hp, hc]⟩
      | badShape => exact ⟨[], by simp [hp, hc]⟩
      | threw => exact ⟨[], by simp [hp, hc]⟩
  · simp only [h1, Bool.false_eq_true, if_false]
    exact ⟨[], by simp⟩

/-- Across the whole loop, every decoded chunk is appended to the
accumulator and delivered to the chunk sink once, in arrival order. -/
theorem procBuf_calls :
    ∀ (n : Nat) (b : List Char), b.length ≤ n →
      ∀ (acc : List Char) (calls : List (List Char)),
        ∃ new, (procBuf b acc calls).calls = calls ++ new ∧
          (procBuf b acc calls).accumulated = acc ++ new.flatten := by
  intro n
  induction n with
  | zero =>
    intro b hb acc calls
    have hbnil : b = [] := List.length_eq_zero.mp (Nat.le_zero.mp hb)
    subst hbnil
    rw [procBuf_eq []]
    exact ⟨[], by simp [breakAtNl]⟩
  | succ n ih =>
    intro b hb acc calls
    cases hbk : breakAtNl b with
    | none =>
      rw [procBuf_eq b, hbk]
      exact ⟨[], by simp⟩
    | some p =>
      obtain ⟨line, rest⟩ := p
      obtain ⟨dc, hdc⟩ := handleLine_delta line acc calls
      have hkey : procBuf b acc calls =
          procBuf rest (acc ++ dc.flatten) (calls ++ dc) := by
        rw [procBuf_eq b, hbk]
        simp only [hdc]
      rw [hkey]
      obtain ⟨new, hn1, hn2⟩ := ih rest
        (by have := breakAtNl_some_length b line rest hbk; omega)
        (acc ++ dc.flatten) (calls ++ dc)
      refine ⟨dc ++ new, ?_, ?_⟩
      · rw [hn1, List.append_assoc]
      · rw [hn2, List.flatten_append, List.append_assoc]

/-- C7: delivering a byte sequence split across any two chunk boundaries
produces exactly the same decoder state - the same accumulated text and
the same chunk-sink call sequence - as delivering it in one write, and
each decoded chunk is appended to the accumulator and delivered to the
sink in arrival order (malformed fragments contributing nothing). -/
theorem c7_split_invariance (st : StreamState) (d1 d2 : List Char) :
    curlWriteCallback (curlWriteCallback st d1) d2 =
      curlWriteCallback st (d1 ++ d2) ∧
    ∃ new, (curlWriteCallback st (d1 ++ d2)).calls = st.calls ++ new ∧
      (curlWriteCallback st (d1 ++ d2)).accumulated =
        st.accumulated ++ new.flatten := by
  constructor
  · show procBuf ((procBuf (st.buffer ++ d1) st.accumulated st.calls).buffer ++ d2)
      (procBuf (st.buffer ++ d1) st.accumulated st.calls).accumulated
      (procBuf (st.buffer ++ d1) st.accumulated st.calls).calls =
      procBuf (st.buffer ++ (d1 ++ d2)) st.accumulated st.calls
    rw [procBuf_append (st.buffer ++ d1).length (st.buffer ++ d1) le_rfl
      st.accumulated st.calls d2]
    rw [List.append_assoc]
  · exact procBuf_calls (st.buffer ++ (d1 ++ d2)).length _ le_rfl _ _
